import Mathlib

/-
Verification of the opcua-websocket bridge core against its design notes.

The development shallowly embeds the pub/sub hub, the single-slot overwrite
queue, the per-connection delivery loop, the upstream retry loop, the shutdown
coordinator and the data-change encoder from src/opcua_webhmi_bridge.py
(and src/opcua_webhmi_bridge/websocket.py for the modular handler).
Stateful code becomes explicit state passing; fallible code returns
Except/Option; the suspension of an asyncio coroutine is modelled by an
Option-valued step (none = still suspended).
-/

namespace Bridge

/-! ## Python 3.8 exception hierarchy

The program runs on Python 3.8 (shebang). The classes relevant to the
error-handling paths, with their inheritance chains: builtin TimeoutError
subclasses OSError; asyncio.TimeoutError is concurrent.futures.TimeoutError,
a direct Exception subclass; CancelledError subclasses BaseException
directly since 3.8. -/

inductive PyExc
  | baseException
  | exception
  | osError
  | connectionError
  | connectionResetError
  | timeoutError
  | asyncioTimeoutError
  | cancelledError
  | typeError
  | keyError
  | valueError
  deriving DecidableEq, Repr

/-- Linearization of each class's ancestors (the class itself first). -/
def PyExc.mro : PyExc → List PyExc
  | .baseException => [.baseException]
  | .exception => [.exception, .baseException]
  | .osError => [.osError, .exception, .baseException]
  | .connectionError => [.connectionError, .osError, .exception, .baseException]
  | .connectionResetError =>
      [.connectionResetError, .connectionError, .osError, .exception, .baseException]
  | .timeoutError => [.timeoutError, .osError, .exception, .baseException]
  | .asyncioTimeoutError => [.asyncioTimeoutError, .exception, .baseException]
  | .cancelledError => [.cancelledError, .baseException]
  | .typeError => [.typeError, .exception, .baseException]
  | .keyError => [.keyError, .exception, .baseException]
  | .valueError => [.valueError, .exception, .baseException]

/-- Python's isinstance on exception classes. -/
def isinstance (e c : PyExc) : Bool := (PyExc.mro e).contains c

/-! ## SingleElemOverwriteQueue (src/opcua_webhmi_bridge.py lines 30-44)

The subclass stores a single value in `self._queue`: `_init` sets it to None,
`_put` overwrites it, `_get` returns it and resets it to None. The inherited
asyncio.Queue machinery (CPython 3.8 Lib/asyncio/queues.py) decides emptiness
with `not self._queue`, which is True both for None and for the empty string;
`put_nowait` never sees a full queue because maxsize is 0. -/

/-- The slot of a SingleElemOverwriteQueue: `none` is Python None (set by `_init` / `_get`). -/
abbrev Slot := Option String

/-- `_put` via `put_nowait`: unconditionally overwrite the slot. -/
def queuePut : Slot → String → Slot := fun _ item => some item

/-- asyncio.Queue.empty, CPython 3.8: `not self._queue`. None and "" are both falsy. -/
def queueEmpty : Slot → Bool
  | none => true
  | some s => s == ""

/-- asyncio.Queue.get observed atomically: once the queue is non-empty it returns the
item and clears the slot (`_get`); `none` models the caller staying suspended in
`while self.empty(): await getter`. -/
def queueGet (q : Slot) : Option (String × Slot) :=
  if queueEmpty q then none
  else
    match q with
    | some s => some (s, none)
    | none => none

/-! ## Hub (src/opcua_webhmi_bridge.py lines 47-63)

`_subscriptions` is a set of queue objects; we give each queue an identity and
keep the subscribed queues' slots in an association list with distinct keys.
`_last_message` starts as None. -/

structure Hub where
  subscriptions : List (Nat × Slot)
  lastMessage : Option String
  deriving DecidableEq, Repr

/-- `Hub.__init__`: empty subscriber set, `_last_message = None`. -/
def Hub.init : Hub := ⟨[], none⟩

/-- Python truthiness of `self._last_message`: None and "" are falsy. -/
def msgTruthy : Option String → Bool
  | none => false
  | some s => !(s == "")

/-- `Hub.add_subscription` (lines 52-55): add the queue, then
`if self._last_message: subscription.put_nowait(self._last_message)`.
When the test passes, the put overwrites the fresh slot with exactly the stored
message, i.e. the slot becomes `h.lastMessage` itself. -/
def Hub.add_subscription (h : Hub) (id : Nat) (q : Slot) : Hub :=
  ⟨(id, if msgTruthy h.lastMessage then h.lastMessage else q) :: h.subscriptions,
   h.lastMessage⟩

/-- Whether the channel with identity `id` is currently subscribed
(the membership test Python's set.remove performs). -/
def hubSubscribed (h : Hub) (id : Nat) : Bool :=
  h.subscriptions.any (fun p => p.1 == id)

/-- `Hub.remove_subscription` (lines 57-58): `self._subscriptions.remove(...)`;
Python set.remove raises KeyError when the element is absent. -/
def Hub.remove_subscription (h : Hub) (id : Nat) : Except PyExc Hub :=
  if hubSubscribed h id then
    .ok ⟨h.subscriptions.filter (fun p => !(p.1 == id)), h.lastMessage⟩
  else
    .error .keyError

/-- `Hub.publish` (lines 60-63): set `_last_message`, then `put_nowait` the message
into every subscribed queue. -/
def Hub.publish (h : Hub) (message : String) : Hub :=
  ⟨h.subscriptions.map (fun p => (p.1, queuePut p.2 message)), some message⟩

/-- A sequence of publishes applied in order. -/
def publishAll (h : Hub) (msgs : List String) : Hub := msgs.foldl Hub.publish h

/-- The slot of the subscribed channel with identity `id` (none when not subscribed). -/
def subSlot (h : Hub) (id : Nat) : Option Slot :=
  (h.subscriptions.find? (fun p => p.1 == id)).map (fun p => p.2)

lemma publish_subscriptions_nil (h : Hub) (m : String) (hs : h.subscriptions = []) :
    (h.publish m).subscriptions = [] := by
  simp [Hub.publish, hs]

lemma publishAll_subscriptions_nil (msgs : List String) (h : Hub)
    (hs : h.subscriptions = []) : (publishAll h msgs).subscriptions = [] := by
  induction msgs generalizing h with
  | nil => simpa [publishAll] using hs
  | cons a rest ih =>
      simp only [publishAll, List.foldl_cons]
      exact ih _ (publish_subscriptions_nil h a hs)

/-- C1 (amended): after any sequence of publishes whose final message is non-empty,
a channel subscribing afterwards has that message written into its slot at
subscription time, and its very first read returns it without a new publish. -/
theorem hub_subscribe_after_publish_delivers_last (msgs : List String) (m : String)
    (hm : m ≠ "") (id : Nat) :
    subSlot (((publishAll Hub.init msgs).publish m).add_subscription id none) id
      = some (some m) ∧
    queueGet (some m) = some (m, none) := by
  constructor
  · have hs : ((publishAll Hub.init msgs).publish m).subscriptions = [] :=
      publish_subscriptions_nil _ m (publishAll_subscriptions_nil msgs Hub.init rfl)
    simp [subSlot, Hub.add_subscription, Hub.publish, msgTruthy, List.find?, hm, hs]
  · simp [queueGet, queueEmpty, hm]

/-- C1 witness: a concrete instance of the amended subscription guarantee. -/
theorem hub_subscribe_after_publish_delivers_last_witness :
    ("hello" ≠ "") ∧
    (subSlot (((publishAll Hub.init []).publish "hello").add_subscription 0 none) 0
        = some (some "hello") ∧
     queueGet (some "hello") = some ("hello", none)) :=
  ⟨by decide, hub_subscribe_after_publish_delivers_last [] "hello" (by decide) 0⟩

/-- C1 counterexample: publishing the empty string and then subscribing leaves the
new channel empty — `if self._last_message:` is false for the falsy "" — so the
first read suspends instead of returning the last published message. -/
theorem hub_subscribe_after_empty_publish_gets_nothing :
    subSlot ((Hub.init.publish "").add_subscription 0 none) 0 = some none ∧
    queueGet none = none := by
  constructor <;> rfl

lemma find?_publish (l : List (Nat × Slot)) (id : Nat) (m : String) :
    (l.map (fun p => (p.1, queuePut p.2 m))).find? (fun p => p.1 == id)
      = (l.find? (fun p => p.1 == id)).map (fun p => (p.1, queuePut p.2 m)) := by
  induction l with
  | nil => rfl
  | cons p rest ih =>
      by_cases hp : (p.1 == id) = true
      · simp [List.find?_cons, hp]
      · simp only [Bool.not_eq_true] at hp
        simp [List.find?_cons, hp, ih]

lemma subSlot_publish (h : Hub) (id : Nat) (m : String) :
    subSlot (h.publish m) id = (subSlot h id).map (fun _ => some m) := by
  simp only [subSlot, Hub.publish]
  rw [find?_publish]
  cases h.subscriptions.find? (fun p => p.1 == id) <;> rfl

lemma subSlot_publishAll (h : Hub) (id : Nat) (ms : List String) (m : String)
    (hlast : ms.getLast? = some m) (hsub : (subSlot h id).isSome = true) :
    subSlot (publishAll h ms) id = some (some m) := by
  induction ms generalizing h with
  | nil => simp at hlast
  | cons a rest ih =>
      cases rest with
      | nil =>
          simp only [List.getLast?_singleton, Option.some_inj] at hlast
          subst hlast
          obtain ⟨s, hs⟩ := Option.isSome_iff_exists.mp hsub
          simp [publishAll, subSlot_publish, hs]
      | cons b rest2 =>
          rw [List.getLast?_cons_cons] at hlast
          have hsub2 : (subSlot (h.publish a) id).isSome = true := by
            obtain ⟨s, hs⟩ := Option.isSome_iff_exists.mp hsub
            simp [subSlot_publish, hs]
          simpa [publishAll, List.foldl_cons] using ih (h.publish a) hlast hsub2

/-- C2 (amended): after a burst of N ≥ 2 publishes between two reads of a subscribed
channel, the slot holds exactly the Nth (most recent) message; when that message is
non-empty the next read returns exactly it (never an earlier one), and when it is the
empty string the read suspends (still never returning an earlier message), because
asyncio.Queue treats a falsy slot as empty. -/
theorem burst_next_read_returns_most_recent (h : Hub) (id : Nat)
    (hsub : (subSlot h id).isSome = true) (ms : List String) (m : String)
    (hlast : ms.getLast? = some m) (_hlen : 2 ≤ ms.length) :
    subSlot (publishAll h ms) id = some (some m) ∧
    (m ≠ "" → queueGet (some m) = some (m, none)) ∧
    (m = "" → queueGet (some m) = none) := by
  refine ⟨subSlot_publishAll h id ms m hlast hsub, ?_, ?_⟩
  · intro hm
    simp [queueGet, queueEmpty, hm]
  · intro hm
    subst hm
    rfl

/-- C2 witness: a concrete burst of two publishes delivered to one subscriber. -/
theorem burst_next_read_returns_most_recent_witness :
    ((subSlot (Hub.mk [(0, none)] none) 0).isSome = true ∧
     (["a", "b"] : List String).getLast? = some "b" ∧
     2 ≤ (["a", "b"] : List String).length) ∧
    (subSlot (publishAll (Hub.mk [(0, none)] none) ["a", "b"]) 0 = some (some "b") ∧
     ("b" ≠ "" → queueGet (some "b") = some ("b", none)) ∧
     ("b" = "" → queueGet (some "b") = none)) :=
  ⟨⟨by decide, by decide, by decide⟩,
   burst_next_read_returns_most_recent _ 0 (by decide) _ "b" (by decide) (by decide)⟩

/-- C2 counterexample: a burst of two publishes ending in the empty string leaves the
slot overwritten with "", but the next read does not return that most recent message —
CPython's asyncio.Queue.empty is `not self._queue`, so the reader stays suspended. -/
theorem burst_ending_empty_read_suspends :
    subSlot (publishAll (Hub.mk [(0, none)] none) ["a", ""]) 0 = some (some "") ∧
    queueGet (some "") = none := by
  constructor <;> rfl

/-- C8 (amended): remove_subscription removes the channel from the subscriber set,
but it is not idempotent: a second call on the same channel raises KeyError
(Python set.remove) instead of leaving the state unchanged. -/
theorem unsubscribe_removes_and_second_call_raises (h : Hub) (id : Nat)
    (hin : hubSubscribed h id = true) :
    ∃ h2, h.remove_subscription id = Except.ok h2 ∧ hubSubscribed h2 id = false ∧
      h2.remove_subscription id = Except.error PyExc.keyError := by
  have hany : (h.subscriptions.filter (fun p => !(p.1 == id))).any
      (fun p => p.1 == id) = false := by
    rw [Bool.eq_false_iff]
    intro hcontra
    obtain ⟨p, hp, hpid⟩ := List.any_eq_true.mp hcontra
    have hmem := List.of_mem_filter hp
    simp [hpid] at hmem
  refine ⟨⟨h.subscriptions.filter (fun p => !(p.1 == id)), h.lastMessage⟩, ?_, ?_, ?_⟩
  · simp [Hub.remove_subscription, hin]
  · exact hany
  · simp [Hub.remove_subscription, hubSubscribed, hany]

/-- C8 witness: a hub holding one subscribed channel. -/
theorem unsubscribe_removes_and_second_call_raises_witness :
    hubSubscribed (Hub.mk [(0, none)] none) 0 = true ∧
    (∃ h2, (Hub.mk [(0, none)] none).remove_subscription 0 = Except.ok h2 ∧
      hubSubscribed h2 0 = false ∧
      h2.remove_subscription 0 = Except.error PyExc.keyError) :=
  ⟨by decide, unsubscribe_removes_and_second_call_raises _ 0 (by decide)⟩

/-- C8 counterexample: subscribing one channel, then unsubscribing it twice — the
first call succeeds (back to the initial hub), the second raises KeyError, so a
double-call does not leave the hub in the same state without error. -/
theorem double_unsubscribe_raises :
    (Hub.init.add_subscription 0 none).remove_subscription 0 = Except.ok Hub.init ∧
    ((Hub.init.add_subscription 0 none).remove_subscription 0).bind
      (fun h2 => h2.remove_subscription 0) = Except.error PyExc.keyError := by
  constructor <;> rfl

/-! ## Freshness of a single subscriber's reads (C3)

One subscribed channel, one reader. Events are Hub.publish delivering into the
channel via put_nowait — ghost-stamped with the publish sequence number — and
completed reads of the single reader's queue.get. A get issued while the slot is
falsy stays suspended (the same condition as queueGet) and returns nothing yet. -/

/-- A slot carrying a ghost publish index next to the stored message. -/
abbrev GSlot := Option (Nat × String)

/-- queuePut on a ghost-stamped slot. -/
def gPut : GSlot → Nat → String → GSlot := fun _ i m => some (i, m)

/-- queueGet lifted to ghost-stamped slots: same truthiness condition on the message. -/
def gGet (q : GSlot) : Option ((Nat × String) × GSlot) :=
  match q with
  | some (i, m) => if m == "" then none else some ((i, m), none)
  | none => none

/-- The ghost stamping is sound: erasing the index recovers queueGet exactly. -/
lemma gGet_agrees (q : GSlot) :
    queueGet (q.map (fun p => p.2))
      = (gGet q).map (fun r => (r.1.2, r.2.map (fun p => p.2))) := by
  match q with
  | none => rfl
  | some (i, m) =>
      by_cases hm : (m == "") = true
      · simp [queueGet, queueEmpty, gGet, hm]
      · simp only [Bool.not_eq_true] at hm
        simp [queueGet, queueEmpty, gGet, hm]

/-- One event on the subscribed channel: a hub publish of message `m`, or a
read attempt by the single reader. -/
inductive ChanOp
  | pub (m : String)
  | get
  deriving DecidableEq, Repr

/-- Trace state: publishes so far, the channel slot, and the ghost indices of the
messages the reader has received, in order of receipt. -/
structure FreshState where
  counter : Nat
  slot : GSlot
  reads : List Nat
  deriving DecidableEq, Repr

def freshInit : FreshState := ⟨0, none, []⟩

/-- `pub m` is Hub.publish fanning out to this subscribed channel (put_nowait with
the next ghost index); `get` completes exactly when the slot is truthy, returning
and clearing it, and otherwise leaves the reader suspended. -/
def freshStep (s : FreshState) : ChanOp → FreshState
  | .pub m => ⟨s.counter + 1, gPut s.slot s.counter m, s.reads⟩
  | .get =>
      match gGet s.slot with
      | some (r, q) => ⟨s.counter, q, s.reads ++ [r.1]⟩
      | none => s

def freshRun (ops : List ChanOp) : FreshState := ops.foldl freshStep freshInit

/-- The invariant tying reads, the slot and the publish counter together. -/
def FreshInv (s : FreshState) : Prop :=
  (∀ j ∈ s.reads, j < s.counter) ∧
  (∀ i m, s.slot = some (i, m) → i < s.counter ∧ ∀ j ∈ s.reads, j < i) ∧
  s.reads.Pairwise (· < ·)

lemma freshStep_inv (s : FreshState) (op : ChanOp) (h : FreshInv s) :
    FreshInv (freshStep s op) := by
  obtain ⟨h1, h2, h3⟩ := h
  cases op with
  | pub m =>
      refine ⟨fun j hj => ?_, fun i m' hslot => ?_, h3⟩
      · exact Nat.lt_succ_of_lt (h1 j hj)
      · simp only [freshStep, gPut, Option.some_inj, Prod.mk.injEq] at hslot
        exact ⟨hslot.1 ▸ Nat.lt_succ_self _, fun j hj => hslot.1 ▸ h1 j hj⟩
  | get =>
      match hs : s.slot with
      | none =>
          have hstep : freshStep s .get = s := by simp [freshStep, gGet, hs]
          rw [hstep]
          exact ⟨h1, h2, h3⟩
      | some (i, m) =>
          by_cases hm : (m == "") = true
          · have hstep : freshStep s .get = s := by simp [freshStep, gGet, hs, hm]
            rw [hstep]
            exact ⟨h1, h2, h3⟩
          · have hstep : freshStep s .get = ⟨s.counter, none, s.reads ++ [i]⟩ := by
              simp [freshStep, gGet, hs, hm]
            obtain ⟨hic, hiall⟩ := h2 i m hs
            rw [hstep]
            refine ⟨fun j hj => ?_, fun i' m' hcontra => ?_, ?_⟩
            · rcases List.mem_append.mp hj with hj | hj
              · exact h1 j hj
              · simp only [List.mem_singleton] at hj
                exact hj ▸ hic
            · simp at hcontra
            · rw [List.pairwise_append]
              refine ⟨h3, ?_, ?_⟩
              · simp
              · intro a ha b hb
                simp only [List.mem_singleton] at hb
                exact hb ▸ hiall a ha

lemma freshRun_inv (ops : List ChanOp) : FreshInv (freshRun ops) := by
  have hinit : FreshInv freshInit := by
    refine ⟨?_, ?_, ?_⟩
    · intro j hj
      simp [freshInit] at hj
    · intro i m hm
      simp [freshInit] at hm
    · exact List.Pairwise.nil
  suffices hgen : ∀ s, FreshInv s → FreshInv (ops.foldl freshStep s) from
    hgen freshInit hinit
  induction ops with
  | nil => exact fun s hs => hs
  | cons op rest ih =>
      intro s hs
      exact ih (freshStep s op) (freshStep_inv s op hs)

/-- C3: over every interleaving of publishes and reads on one subscribed channel
with a single reader, the ghost publish indices of the messages the reader receives
are strictly increasing — no read ever returns a message published earlier than one
already received (intermediate messages may be skipped). -/
theorem reads_monotonically_fresh (ops : List ChanOp) :
    (freshRun ops).reads.Pairwise (· < ·) :=
  (freshRun_inv ops).2.2

/-! ## The per-connection delivery loops (C4, C9)

websockets_handler (src/opcua_webhmi_bridge.py lines 131-159) and _handler
(src/opcua_webhmi_bridge/websocket.py lines 22-57) both race a pending
queue.get task against websocket.wait_closed inside asyncio.wait with
FIRST_COMPLETED. Each loop turn the environment decides which of the two tasks
are in `done` (and, when both are, in which order the done-set iterates). The
externally visible actions are collected as a trace; logging (where the two
handlers resolve the client address differently) is not an action. Sends are
modelled as succeeding; a send failure would raise identically in both
handlers at the same program point. -/

/-- One completion of `asyncio.wait(..., return_when=FIRST_COMPLETED)`:
which of the two raced tasks are done, and when both are, whether the
done-set iteration visits the message task first. -/
inductive WaitRound
  | msgOnly (m : String)
  | closeOnly
  | both (m : String) (msgFirst : Bool)
  deriving DecidableEq, Repr

/-- Externally visible actions of a delivery loop. -/
inductive HandlerAction
  | subscribeChan
  | startGet
  | send (m : String)
  | cancelGet
  | awaitCancelled
  | unsubscribeChan
  deriving DecidableEq, Repr

/-- How (or whether) a handler run ended. -/
inductive HandlerOutcome
  | running
  | finished
  | raisedCancelled
  deriving DecidableEq, Repr

/-- The `while True` loop of websockets_handler (lines 139-159). A message round
sends and re-arms the get; a close-only round cancels the one pending get, awaits
it — in this monolithic handler the bare `await task` re-raises the task's
CancelledError, which propagates out through the `with subscription(hub)` block,
whose finally still unsubscribes. When both tasks are done in one round, asyncio.wait
returned an empty pending set, so after sending (and re-arming a get that is never
cancelled) the loop breaks and exits normally, in either done-iteration order. -/
def monoLoop : List WaitRound → List HandlerAction × HandlerOutcome
  | [] => ([], .running)
  | .msgOnly m :: rest =>
      let r := monoLoop rest
      (.send m :: .startGet :: r.1, r.2)
  | .closeOnly :: _ =>
      ([.cancelGet, .awaitCancelled, .unsubscribeChan], .raisedCancelled)
  | .both m _ :: _ =>
      ([.send m, .startGet, .unsubscribeChan], .finished)

/-- websockets_handler (lines 131-159): subscribe via the `subscription`
contextmanager, arm the first get, then run the loop. -/
def runMono (script : List WaitRound) : List HandlerAction × HandlerOutcome :=
  (.subscribeChan :: .startGet :: (monoLoop script).1, (monoLoop script).2)

/-- The `while True` loop of the modular _handler (websocket.py lines 32-57):
identical to monoLoop except that the close-only round wraps `await pending_task`
in `try: ... except asyncio.CancelledError: pass`, so after the acknowledged
cancellation the loop breaks and the handler returns normally. -/
def modLoop : List WaitRound → List HandlerAction × HandlerOutcome
  | [] => ([], .running)
  | .msgOnly m :: rest =>
      let r := modLoop rest
      (.send m :: .startGet :: r.1, r.2)
  | .closeOnly :: _ =>
      ([.cancelGet, .awaitCancelled, .unsubscribeChan], .finished)
  | .both m _ :: _ =>
      ([.send m, .startGet, .unsubscribeChan], .finished)

/-- Modelled from the spec: pubsub.py (the modular hub with its `subscribe`
method, imported by websocket.py as `from .pubsub import hub`) is not among the
sources; per the spec, subscribe "creates a new channel, adds it to subscribers
... Returns a handle whose release triggers unsubscribe (scoped acquisition)",
so _handler's `with hub.subscribe() as queue:` contributes subscribeChan on
entry and unsubscribeChan on every exit, exactly like the monolithic
`subscription` contextmanager. The loop body is transcribed from
websocket.py lines 22-57. -/
def runMod (script : List WaitRound) : List HandlerAction × HandlerOutcome :=
  (.subscribeChan :: .startGet :: (modLoop script).1, (modLoop script).2)

lemma monoLoop_msgs_close (ms : List String) :
    monoLoop (ms.map WaitRound.msgOnly ++ [WaitRound.closeOnly])
      = ((ms.map (fun m => [HandlerAction.send m, HandlerAction.startGet])).flatten ++
          [.cancelGet, .awaitCancelled, .unsubscribeChan], .raisedCancelled) := by
  induction ms with
  | nil => rfl
  | cons a rest ih => simp [monoLoop, ih]

/-- C4: whenever the connection close completes while a get is pending — any number
of delivered messages followed by a close-only round — websockets_handler cancels the
pending get exactly once, awaits its cancellation acknowledgment exactly once,
unsubscribes its channel exactly once, and terminates (here by letting the awaited
CancelledError propagate, through the unsubscribing finally, out of the handler). -/
theorem delivery_loop_close_cancels_get_once (ms : List String) :
    (runMono (ms.map WaitRound.msgOnly ++ [WaitRound.closeOnly])).1.count
        HandlerAction.cancelGet = 1 ∧
    (runMono (ms.map WaitRound.msgOnly ++ [WaitRound.closeOnly])).1.count
        HandlerAction.awaitCancelled = 1 ∧
    (runMono (ms.map WaitRound.msgOnly ++ [WaitRound.closeOnly])).1.count
        HandlerAction.unsubscribeChan = 1 ∧
    (runMono (ms.map WaitRound.msgOnly ++ [WaitRound.closeOnly])).2
      = HandlerOutcome.raisedCancelled := by
  rw [runMono]
  rw [monoLoop_msgs_close]
  refine ⟨?_, ?_, ?_, rfl⟩ <;>
    · simp only [List.count_cons, List.count_append]
      rw [show ((ms.map (fun m => [HandlerAction.send m, HandlerAction.startGet])).flatten).count
            _ = 0 from ?_]
      · rfl
      · rw [List.count_eq_zero]
        intro hmem
        obtain ⟨l, hl, hml⟩ := List.mem_flatten.mp hmem
        obtain ⟨m, _, rfl⟩ := List.mem_map.mp hl
        simp at hml

lemma monoLoop_modLoop_actions (script : List WaitRound) :
    (monoLoop script).1 = (modLoop script).1 := by
  induction script with
  | nil => rfl
  | cons r rest ih =>
      cases r with
      | msgOnly m => simp [monoLoop, modLoop, ih]
      | closeOnly => rfl
      | both m f => rfl

/-- C9 (amended): for every sequence of channel messages and connection-close
events, the monolithic websockets_handler and the modular _handler perform the
same externally visible actions — the same sends, the same cancellation/teardown
of the pending get, the same unsubscribe; besides client-address resolution for
logging they differ in how they terminate after a close that arrives alone while
a get is pending: the monolithic handler lets the CancelledError of the awaited
cancelled get propagate out, the modular one suppresses it and returns normally. -/
theorem handlers_same_actions (script : List WaitRound) :
    (runMono script).1 = (runMod script).1 := by
  simp only [runMono, runMod]
  rw [monoLoop_modLoop_actions]

/-- C9 counterexample: on a close-only round the two handlers are not behaviorally
equal — the monolithic one terminates by propagating CancelledError where the
modular one finishes normally, a difference beyond client-address resolution. -/
theorem handlers_differ_on_close :
    runMono [WaitRound.closeOnly] ≠ runMod [WaitRound.closeOnly] := by
  decide

/-! ## The upstream connector retry loop (C5, C6)

opcua_task (src/opcua_webhmi_bridge.py lines 100-128): a `while True` loop that
sleeps `retry_delay` when `retrying`, then runs the connect / load-types /
subscribe / health-check body. The body contains an inner `while True`, so it only
leaves by raising; the class of the exception raised on attempt `k` is supplied by
the environment as `f k`. The `except (OSError, asyncio.TimeoutError)` clause logs
and sets `retrying`; any other class propagates out of opcua_task. -/

/-- The classes caught by `except (OSError, asyncio.TimeoutError)` on line 126. -/
def opcuaCatches (e : PyExc) : Bool :=
  isinstance e .osError || isinstance e .asyncioTimeoutError

/-- Visible actions of one opcua_task iteration. -/
inductive OpcAction
  | sleepDelay (d : Nat)
  | connectAttempt
  | logClientError (e : PyExc)
  deriving DecidableEq, Repr

/-- One turn of opcua_task's outer loop: optional retry sleep, the connect attempt,
and either the logged-and-swallowed error (continuing with retrying = True) or the
propagating exception. -/
def opcuaStep (d : Nat) (retrying : Bool) (e : PyExc) :
    List OpcAction × Except PyExc Bool :=
  let pre := if retrying then [OpcAction.sleepDelay d] else []
  if opcuaCatches e then
    (pre ++ [.connectAttempt, .logClientError e], .ok true)
  else
    (pre ++ [.connectAttempt], .error e)

/-- Run `n` turns of opcua_task's outer loop; the second component is the exception
that propagated out, or none while the loop is still running. -/
def opcuaRun (d : Nat) (f : Nat → PyExc) : Nat → Bool → List OpcAction × Option PyExc
  | 0, _ => ([], none)
  | n + 1, retrying =>
      match opcuaStep d retrying (f 0) with
      | (as, .error e) => (as, some e)
      | (as, .ok r) =>
          let rest := opcuaRun d (fun k => f (k + 1)) n r
          (as ++ rest.1, rest.2)

lemma opcuaStep_true (d : Nat) (e : PyExc) :
    opcuaStep d true e
      = (OpcAction.sleepDelay d :: (opcuaStep d false e).1, (opcuaStep d false e).2) := by
  by_cases hc : opcuaCatches e = true <;> simp [opcuaStep, hc]

lemma opcuaRun_true (d : Nat) (f : Nat → PyExc) (n : Nat) :
    opcuaRun d f (n + 1) true
      = (OpcAction.sleepDelay d :: (opcuaRun d f (n + 1) false).1,
         (opcuaRun d f (n + 1) false).2) := by
  rw [opcuaRun, opcuaRun, opcuaStep_true d (f 0)]
  match hstep : opcuaStep d false (f 0) with
  | (as, .error e) => rfl
  | (as, .ok r) => rfl

/-- C5: when every connect attempt raises a caught (network/timeout-class) error,
opcua_task never leaves its loop and never lets the error out: after any number of
turns nothing has propagated, and its trace is the first attempt followed, for each
retry, by a sleep of the configured delay before the next attempt. -/
theorem opcua_retries_forever (d n : Nat) (f : Nat → PyExc)
    (h : ∀ k, opcuaCatches (f k) = true) :
    (opcuaRun d f (n + 1) false).2 = none ∧
    (opcuaRun d f (n + 1) false).1
      = [OpcAction.connectAttempt, OpcAction.logClientError (f 0)] ++
        ((List.range n).map (fun k =>
          [OpcAction.sleepDelay d, OpcAction.connectAttempt,
           OpcAction.logClientError (f (k + 1))])).flatten := by
  induction n generalizing f with
  | zero =>
      constructor <;> simp [opcuaRun, opcuaStep, h 0]
  | succ n ih =>
      have hstep : opcuaStep d false (f 0)
          = ([OpcAction.connectAttempt, OpcAction.logClientError (f 0)], .ok true) := by
        simp [opcuaStep, h 0]
      obtain ⟨ih1, ih2⟩ := ih (fun k => f (k + 1)) (fun k => h (k + 1))
      constructor
      · rw [opcuaRun, hstep]
        simp only
        rw [opcuaRun_true]
        exact ih1
      · rw [opcuaRun, hstep]
        simp only
        rw [opcuaRun_true, ih2]
        rw [List.range_succ_eq_map]
        simp [List.flatten, Function.comp_def, Nat.succ_eq_add_one]

/-- C5 witness: two turns with every attempt raising OSError — no propagation,
one retry sleep of the configured delay between the two attempts. -/
theorem opcua_retries_forever_witness :
    (∀ k : Nat, opcuaCatches ((fun (_ : Nat) => PyExc.osError) k) = true) ∧
    ((opcuaRun 5 (fun _ => PyExc.osError) 2 false).2 = none ∧
     (opcuaRun 5 (fun _ => PyExc.osError) 2 false).1
       = [OpcAction.connectAttempt, OpcAction.logClientError PyExc.osError] ++
         ((List.range 1).map (fun _ =>
           [OpcAction.sleepDelay 5, OpcAction.connectAttempt,
            OpcAction.logClientError PyExc.osError])).flatten) :=
  ⟨fun _ => rfl, opcua_retries_forever 5 1 (fun _ => PyExc.osError) (fun _ => rfl)⟩

/-- The spec's network/timeout class: OSError (with its subclasses, among them the
ConnectionError family and builtin TimeoutError) or asyncio.TimeoutError. -/
def isNetworkTimeout (e : PyExc) : Prop :=
  isinstance e .osError = true ∨ isinstance e .asyncioTimeoutError = true

instance (e : PyExc) : Decidable (isNetworkTimeout e) := by
  unfold isNetworkTimeout
  infer_instance

/-- C6: an error raised in the connect/subscribe/health-check body is swallowed
into a retry by opcua_task if and only if it is of the network/timeout class
(an OSError or an asyncio.TimeoutError); every other class — CancelledError,
TypeError, anything else — propagates out of the loop unchanged. -/
theorem opcua_swallows_iff_network_timeout (d : Nat) (retrying : Bool) (e : PyExc) :
    ((opcuaStep d retrying e).2 = Except.ok true ↔ isNetworkTimeout e) ∧
    ((opcuaStep d retrying e).2 = Except.error e ↔ ¬ isNetworkTimeout e) := by
  have hiff : opcuaCatches e = true ↔ isNetworkTimeout e := by
    simp [opcuaCatches, isNetworkTimeout, Bool.or_eq_true]
  by_cases hc : opcuaCatches e = true
  · simp [opcuaStep, hc, hiff.mp hc]
  · have hnot : ¬ isNetworkTimeout e := fun hn => hc (hiff.mpr hn)
    simp [opcuaStep, hc, hnot]

/-- C6 witness: TypeError is not swallowed — it propagates out of opcua_task. -/
theorem opcua_swallows_iff_network_timeout_witness :
    ((opcuaStep 5 false PyExc.typeError).2 = Except.ok true ↔
      isNetworkTimeout PyExc.typeError) ∧
    ((opcuaStep 5 false PyExc.typeError).2 = Except.error PyExc.typeError ↔
      ¬ isNetworkTimeout PyExc.typeError) :=
  opcua_swallows_iff_network_timeout 5 false PyExc.typeError

/-! ## The shutdown coordinator (C7)

shutdown (src/opcua_webhmi_bridge.py lines 162-180): cancel every other task,
`asyncio.gather(*tasks, return_exceptions=True)` — so each task contributes one
result, a value or an exception instance —, log each result that is an Exception
but not a CancelledError, then `loop.stop()`. -/

/-- One gathered task result: a normal value or an exception instance
(with `return_exceptions=True` a cancelled task contributes its CancelledError). -/
inductive TaskResult
  | value (v : String)
  | exc (e : PyExc)
  deriving DecidableEq, Repr

/-- Visible actions of the shutdown coroutine. -/
inductive ShutdownAction
  | cancelTask (i : Nat)
  | gatherAwait
  | logShutdownError (e : PyExc)
  | stopLoop
  deriving DecidableEq, Repr

/-- The logging decision of lines 175-179: `if not isinstance(result,
asyncio.CancelledError) and isinstance(result, Exception): logging.error(...)`. -/
def shutdownLogOf : TaskResult → Option ShutdownAction
  | .value _ => none
  | .exc e =>
      if !(isinstance e .cancelledError) && isinstance e .exception then
        some (.logShutdownError e)
      else
        none

/-- The shutdown coroutine over the gathered results of the other tasks. -/
def shutdownRun (results : List TaskResult) : List ShutdownAction :=
  ((List.range results.length).map ShutdownAction.cancelTask) ++
  [ShutdownAction.gatherAwait] ++
  (results.filterMap shutdownLogOf) ++
  [ShutdownAction.stopLoop]

lemma getLast?_append_single {α : Type _} (l : List α) (a : α) :
    (l ++ [a]).getLast? = some a := by
  rw [List.getLast?_append_cons]
  rfl

lemma dropLast_append_single {α : Type _} (l : List α) (a : α) :
    (l ++ [a]).dropLast = l := by
  simp

/-- C7: a gathered result is logged as a shutdown error iff it is an exception
instance (an Exception) that is not a CancelledError — cancellation
acknowledgments are never logged — and the scheduler stop is the last action,
strictly after the await of all cancelled tasks. -/
theorem shutdown_logs_only_noncancelled_exceptions (results : List TaskResult) :
    (∀ e, ShutdownAction.logShutdownError e ∈ shutdownRun results ↔
      (TaskResult.exc e ∈ results ∧ isinstance e .cancelledError = false ∧
       isinstance e .exception = true)) ∧
    (shutdownRun results).getLast? = some ShutdownAction.stopLoop ∧
    ShutdownAction.gatherAwait ∈ (shutdownRun results).dropLast := by
  refine ⟨fun e => ?_, ?_, ?_⟩
  · rw [shutdownRun]
    simp only [List.append_assoc, List.mem_append]
    constructor
    · rintro (hmem | hmem | hmem | hmem)
      · obtain ⟨i, _, hcontra⟩ := List.mem_map.mp hmem
        cases hcontra
      · simp at hmem
      · obtain ⟨r, hr, hfr⟩ := List.mem_filterMap.mp hmem
        match r with
        | .value v => simp [shutdownLogOf] at hfr
        | .exc e2 =>
            rw [shutdownLogOf] at hfr
            by_cases hcond :
                (!(isinstance e2 .cancelledError) && isinstance e2 .exception) = true
            · rw [if_pos hcond] at hfr
              rw [Bool.and_eq_true] at hcond
              obtain ⟨h1, h2⟩ := hcond
              cases hfr
              exact ⟨hr, by simpa using h1, h2⟩
            · rw [if_neg hcond] at hfr
              cases hfr
      · simp at hmem
    · rintro ⟨hmem, hnc, hex⟩
      refine Or.inr (Or.inr (Or.inl ?_))
      refine List.mem_filterMap.mpr ⟨TaskResult.exc e, hmem, ?_⟩
      rw [shutdownLogOf, if_pos]
      rw [Bool.and_eq_true]
      exact ⟨by simp [hnc], hex⟩
  · rw [shutdownRun]
    exact getLast?_append_single _ _
  · rw [shutdownRun]
    rw [dropLast_append_single]
    simp

/-! ## The data-change encoder (C10)

OPCUAEncoder (src/opcua_webhmi_bridge.py lines 76-80) serializes a decoded
notification value: an object carrying ua_types becomes the mapping of its
declared fields; anything else falls through to json's default, which accepts
the JSON primitives and raises TypeError otherwise.
datachange_notification (lines 87-97) publishes the json.dumps of the wire
dict; the dumps argument is evaluated before the publish call. -/

mutual
/-- A decoded value: a JSON primitive, an object with a ua_types field list,
or some other Python object (no ua_types, not JSON-encodable). -/
inductive UAValue
  | pyStr (s : String)
  | pyInt (n : Int)
  | pyBool (b : Bool)
  | pyNone
  | uaObj (fields : UAFields)
  | pyObject (tag : String)

/-- The `(elem, getattr(o, elem)) for elem, _ in o.ua_types` sequence of an
object carrying ua_types: field names with their values, in declaration order. -/
inductive UAFields
  | nil
  | cons (name : String) (v : UAValue) (rest : UAFields)
end

/-- One character of a json.dumps string literal (quote and backslash escaped;
the node identifiers and field names used here need no other escapes). -/
def jsonChar (c : Char) : String :=
  if c = '\\' then "\\\\" else if c = '\"' then "\\\"" else String.singleton c

/-- json.dumps rendering of a Python string. -/
def jsonStr (s : String) : String :=
  "\"" ++ String.join (s.toList.map jsonChar) ++ "\""

mutual
/-- json.dumps(..., cls=OPCUAEncoder) on a decoded value; `none` models the
TypeError json's default raises for an object that is neither a JSON primitive
nor carries ua_types (lines 76-80). -/
def encodeVal : UAValue → Option String
  | .pyStr s => some (jsonStr s)
  | .pyInt n => some (toString n)
  | .pyBool b => some (if b then "true" else "false")
  | .pyNone => some "null"
  | .uaObj fields => (encodeFields fields).map (fun body => "\x7b" ++ body ++ "\x7d")
  | .pyObject _ => none

/-- The field dict of a ua_types object rendered with json.dumps' default
separators (", " between items, ": " after each key). -/
def encodeFields : UAFields → Option String
  | .nil => some ""
  | .cons k v .nil => (encodeVal v).map (fun ev => jsonStr k ++ ": " ++ ev)
  | .cons k v (.cons k2 v2 rest) =>
      match encodeVal v, encodeFields (.cons k2 v2 rest) with
      | some ev, some er => some (jsonStr k ++ ": " ++ ev ++ ", " ++ er)
      | _, _ => none
end

mutual
/-- Whether the value has a component that lacks ua_types and is not a JSON
primitive — the inputs OPCUAEncoder cannot serialize. -/
def containsPyObject : UAValue → Bool
  | .uaObj fields => fieldsContainPyObject fields
  | .pyObject _ => true
  | _ => false

def fieldsContainPyObject : UAFields → Bool
  | .nil => false
  | .cons _ v rest => containsPyObject v || fieldsContainPyObject rest
end

mutual
theorem encode_none_of_contains (v : UAValue) (h : containsPyObject v = true) :
    encodeVal v = none := by
  match v with
  | .pyStr s => simp [containsPyObject] at h
  | .pyInt n => simp [containsPyObject] at h
  | .pyBool b => simp [containsPyObject] at h
  | .pyNone => simp [containsPyObject] at h
  | .uaObj fields =>
      rw [containsPyObject] at h
      rw [encodeVal, encodeFields_none_of_contains fields h]
      rfl
  | .pyObject t => rfl

theorem encodeFields_none_of_contains (l : UAFields)
    (h : fieldsContainPyObject l = true) : encodeFields l = none := by
  match l with
  | .nil => simp [fieldsContainPyObject] at h
  | .cons k v .nil =>
      have hv : containsPyObject v = true := by
        simpa [fieldsContainPyObject] using h
      rw [encodeFields, encode_none_of_contains v hv]
      rfl
  | .cons k v (.cons k2 v2 rest) =>
      rw [fieldsContainPyObject, Bool.or_eq_true] at h
      rw [encodeFields]
      rcases h with hv | hr
      · rw [encode_none_of_contains v hv]
      · rw [encodeFields_none_of_contains (.cons k2 v2 rest) hr]
        cases encodeVal v <;> rfl
end

/-- `node.nodeid.Identifier.replace('"', "")` (line 90). -/
def stripQuotes (s : String) : String :=
  String.mk (s.toList.filter (fun c => !(c == '\"')))

/-- json.dumps of the wire dict (lines 92-97): keys in insertion order, default
separators; fails exactly when the data value's encoding raises. -/
def dumpsDataChange (nodeId : String) (val : UAValue) : Option String :=
  (encodeVal val).map (fun dv =>
    "\x7b\"type\": \"opc_data_change\", \"node\": " ++ jsonStr (stripQuotes nodeId) ++
    ", \"data\": " ++ dv ++ "\x7d")

/-- datachange_notification (lines 87-97): `self._hub.publish(json.dumps(...))` —
the dumps argument is evaluated before the call, so an encoding TypeError
prevents the publish and leaves the hub untouched. -/
def datachange_notification (h : Hub) (nodeId : String) (val : UAValue) :
    Hub × Option PyExc :=
  match dumpsDataChange nodeId val with
  | none => (h, some PyExc.typeError)
  | some s => (h.publish s, none)

/-- C10: a notification whose decoded value contains a component without
ua_types that is not a JSON primitive makes datachange_notification raise
TypeError before Hub.publish is called — last_message and every subscriber slot
are unchanged — and TypeError is not in opcua_task's caught class, so it
escapes the retry loop. -/
theorem bad_component_typeerror_skips_publish (h : Hub) (nodeId : String)
    (val : UAValue) (hbad : containsPyObject val = true) :
    datachange_notification h nodeId val = (h, some PyExc.typeError) ∧
    opcuaCatches PyExc.typeError = false ∧
    ∀ d retrying,
      (opcuaStep d retrying PyExc.typeError).2 = Except.error PyExc.typeError := by
  refine ⟨?_, rfl, ?_⟩
  · rw [datachange_notification, dumpsDataChange, encode_none_of_contains val hbad]
    rfl
  · intro d retrying
    simp [opcuaStep, opcuaCatches, isinstance, PyExc.mro]

/-- C10 witness: a structured value with one non-serializable field component,
against a hub holding a previous message and one subscriber. -/
theorem bad_component_typeerror_skips_publish_witness :
    containsPyObject (UAValue.uaObj (UAFields.cons "x" (UAValue.pyObject "obj")
        UAFields.nil)) = true ∧
    (datachange_notification (Hub.mk [(0, some "prev")] (some "prev")) "n"
        (UAValue.uaObj (UAFields.cons "x" (UAValue.pyObject "obj") UAFields.nil))
      = (Hub.mk [(0, some "prev")] (some "prev"), some PyExc.typeError) ∧
     opcuaCatches PyExc.typeError = false ∧
     ∀ d retrying,
       (opcuaStep d retrying PyExc.typeError).2 = Except.error PyExc.typeError) :=
  ⟨by simp [containsPyObject, fieldsContainPyObject],
   bad_component_typeerror_skips_publish _ _ _
     (by simp [containsPyObject, fieldsContainPyObject])⟩

end Bridge
